import Mathlib

/-!
Shallow embedding of `src/contactresolver.cpp` (libcommhistory's
`ContactResolver` / `ContactResolverPrivate`).

The resolver holds a list of events, deduplicates their folded addresses,
issues one resolution request per distinct folded address to the external
SeasideCache, counts completion callbacks, and delivers the annotated event
list (via `eventsResolved` then `finished`) once the count reaches the number
of requested addresses while the event list is non-empty.

External collaborators (Qt string case folding, `minimizePhoneNumber`,
`localUidComparesPhoneNumbers` from commonutils, and the SeasideCache lookup
functions) are not part of the source under verification; they are modelled
as an abstract environment `Env` of opaque functions, so every theorem is
quantified over them unless it needs a specific property.
-/

namespace CommHistory

/-- The fields of `Event` that `contactresolver.cpp` reads or writes:
`localUid()`, `remoteUid()`, and the `contacts()` list of
`(contact id, display label)` pairs set by `setContacts`. -/
structure Event where
  localUid : String
  remoteUid : String
  contacts : List (Int × String) := []
deriving DecidableEq, Repr

/-- `SeasideCache::CacheItem` as used by the resolver: the internal id `iid`
and an opaque payload standing for the `contact` record from which a display
label is generated. -/
structure CacheItem where
  iid : Int
  contact : String
deriving DecidableEq, Repr

/-- `typedef QPair<QString, QString> UidPair`. -/
abbrev UidPair := String × String

/-- The external collaborators of the resolver, abstracted as functions:
Qt's `QString::toCaseFolded`, commonutils' `minimizePhoneNumber` and
`localUidComparesPhoneNumbers`, and the `SeasideCache` lookup calls. -/
structure Env where
  toCaseFolded : String → String
  minimizePhoneNumber : String → String
  localUidComparesPhoneNumbers : String → Bool
  itemByPhoneNumber : String → Option CacheItem
  itemByEmailAddress : String → Option CacheItem
  itemByOnlineAccount : String → String → Option CacheItem
  generateDisplayLabel : CacheItem → String

/-- One asynchronous resolution request issued to the SeasideCache:
`resolvePhoneNumber`, `resolveEmailAddress` or `resolveOnlineAccount`. -/
inductive Request where
  | phone (number : String)
  | email (address : String)
  | account (localUid remoteUid : String)
deriving DecidableEq, Repr

/-- The signals emitted by the resolver on completion. -/
inductive Signal where
  | eventsResolved (events : List Event)
  | finished
deriving DecidableEq, Repr

/-- The mutable state of `ContactResolverPrivate`: the event list, the set of
already-requested uid pairs (`QSet<UidPair>`, modelled as a duplicate-free
list in insertion order), and the completion counter `resolvedAddresses`.
(The `resolveTimer` is observability only and is not modelled.) -/
structure ResolverState where
  events : List Event := []
  requestedAddresses : List UidPair := []
  resolvedAddresses : Nat := 0
deriving DecidableEq, Repr

/-- The state of a freshly constructed `ContactResolver`. -/
def initialState : ResolverState := {}

/-- `ContactResolverPrivate::foldedAddress`. -/
def foldedAddress (env : Env) (localUid remoteUid : String) : UidPair :=
  if localUid = "" then
    let remote := env.minimizePhoneNumber remoteUid
    let remote := if remote = "" then remoteUid else remote
    ("", env.toCaseFolded remote)
  else
    (env.toCaseFolded localUid, env.toCaseFolded remoteUid)

/-- `ContactResolverPrivate::foldedEventAddress(localUid, remoteUid)`. -/
def foldedEventAddress (env : Env) (localUid remoteUid : String) : UidPair :=
  if env.localUidComparesPhoneNumbers localUid then
    foldedAddress env "" remoteUid
  else
    (env.toCaseFolded localUid, env.toCaseFolded remoteUid)

/-- `ContactResolverPrivate::foldedEventAddress(event)`. -/
def foldedEventAddressOfEvent (env : Env) (e : Event) : UidPair :=
  foldedEventAddress env e.localUid e.remoteUid

/-- The dispatch at the end of `resolveEvent`: which SeasideCache resolve
call is made for a folded uid pair (`resolvePhoneNumber` when the first
component is empty, `resolveEmailAddress` when the second is, otherwise
`resolveOnlineAccount`). -/
def requestFor (p : UidPair) : Request :=
  if p.1 = "" then Request.phone p.2
  else if p.2 = "" then Request.email p.1
  else Request.account p.1 p.2

/-- `ContactResolverPrivate::resolveEvent`: skip if either raw uid is empty;
otherwise fold the address, skip if already requested, else record it and
issue exactly one request. Returns the new state and the issued requests. -/
def resolveEvent (env : Env) (s : ResolverState) (e : Event) :
    ResolverState × List Request :=
  if e.localUid = "" ∨ e.remoteUid = "" then (s, [])
  else if foldedEventAddressOfEvent env e ∈ s.requestedAddresses then (s, [])
  else
    ({ s with requestedAddresses :=
        s.requestedAddresses ++ [foldedEventAddressOfEvent env e] },
     [requestFor (foldedEventAddressOfEvent env e)])

/-- The best-match lookup in `applyResolvedContacts`, using the raw
(unminimized) uids of the event. -/
def lookupItem (env : Env) (e : Event) : Option CacheItem :=
  if env.localUidComparesPhoneNumbers e.localUid then
    env.itemByPhoneNumber e.remoteUid
  else if e.remoteUid = "" then
    env.itemByEmailAddress e.localUid
  else
    env.itemByOnlineAccount e.localUid e.remoteUid

/-- The per-event body of the loop in `applyResolvedContacts`: set the
contacts list to the single best match, or to the empty list. -/
def annotateEvent (env : Env) (e : Event) : Event :=
  match lookupItem env e with
  | some item => { e with contacts := [(item.iid, env.generateDisplayLabel item)] }
  | none => { e with contacts := [] }

/-- `ContactResolverPrivate::applyResolvedContacts` (a const method: it
returns an annotated copy of the event list and touches no state). -/
def applyResolvedContacts (env : Env) (s : ResolverState) : List Event :=
  s.events.map (annotateEvent env)

/-- `ContactResolverPrivate::checkIfResolved`: no-op if `events` is empty or
`resolvedAddresses < requestedAddresses.size()`; otherwise compute the
annotated list, clear `events`, and emit `eventsResolved` then `finished`. -/
def checkIfResolved (env : Env) (s : ResolverState) :
    ResolverState × List Signal :=
  if s.events = [] then (s, [])
  else if s.resolvedAddresses < s.requestedAddresses.length then (s, [])
  else
    ({ s with events := [] },
     [Signal.eventsResolved (applyResolvedContacts env s), Signal.finished])

/-- `ContactResolverPrivate::addressResolved`: increment the counter, then
run the completion check. -/
def addressResolved (env : Env) (s : ResolverState) :
    ResolverState × List Signal :=
  checkIfResolved env { s with resolvedAddresses := s.resolvedAddresses + 1 }

/-- The `foreach` loop of `ContactResolver::appendEvents`: for each event,
`resolveEvent` then `events.append(event)`. -/
def appendLoop (env : Env) (s : ResolverState) :
    List Event → ResolverState × List Request
  | [] => (s, [])
  | e :: rest =>
    let p := resolveEvent env s e
    let s2 := { p.1 with events := p.1.events ++ [e] }
    let q := appendLoop env s2 rest
    (q.1, p.2 ++ q.2)

/-- The `foreach` loop of `ContactResolver::prependEvents`: for each event,
`resolveEvent` then `events.prepend(event)`. -/
def prependLoop (env : Env) (s : ResolverState) :
    List Event → ResolverState × List Request
  | [] => (s, [])
  | e :: rest =>
    let p := resolveEvent env s e
    let s2 := { p.1 with events := e :: p.1.events }
    let q := prependLoop env s2 rest
    (q.1, p.2 ++ q.2)

/-- `ContactResolver::appendEvents`: run the loop, then `checkIfResolved`.
Returns the new state, the requests issued, and the signals emitted. -/
def appendEvents (env : Env) (s : ResolverState) (batch : List Event) :
    ResolverState × List Request × List Signal :=
  let p := appendLoop env s batch
  let q := checkIfResolved env p.1
  (q.1, p.2, q.2)

/-- `ContactResolver::prependEvents`: run the loop, then `checkIfResolved`. -/
def prependEvents (env : Env) (s : ResolverState) (batch : List Event) :
    ResolverState × List Request × List Signal :=
  let p := prependLoop env s batch
  let q := checkIfResolved env p.1
  (q.1, p.2, q.2)

/-- `ContactResolver::events()`: a const method returning
`applyResolvedContacts`; paired with the (unchanged) state to make the
non-destructiveness of the snapshot explicit in the model. -/
def eventsOp (env : Env) (s : ResolverState) : List Event × ResolverState :=
  (applyResolvedContacts env s, s)

/-- `ContactResolver::isResolving()`: `!events.isEmpty()`. -/
def isResolving (s : ResolverState) : Bool :=
  !s.events.isEmpty

/-- One external stimulus to the resolver: a public append or prepend call,
or a completion callback from the SeasideCache. -/
inductive Op where
  | append (batch : List Event)
  | prepend (batch : List Event)
  | callback
deriving DecidableEq, Repr

/-- One step of the resolver under a stimulus, with its outputs. -/
def step (env : Env) (s : ResolverState) :
    Op → ResolverState × List Request × List Signal
  | Op.append batch => appendEvents env s batch
  | Op.prepend batch => prependEvents env s batch
  | Op.callback =>
    let p := addressResolved env s
    (p.1, [], p.2)

/-- Run a sequence of stimuli, accumulating all requests issued. -/
def runAll (env : Env) (s : ResolverState) :
    List Op → ResolverState × List Request
  | [] => (s, [])
  | op :: ops =>
    let p := step env s op
    let q := runAll env p.1 ops
    (q.1, p.2.1 ++ q.2)

/-- The events an operation feeds through `resolveEvent`, in processing
order (a callback feeds none). -/
def opEvents : Op → List Event
  | Op.append batch => batch
  | Op.prepend batch => batch
  | Op.callback => []

/-- All events fed through `resolveEvent` by a sequence of stimuli. -/
def opsEvents (ops : List Op) : List Event :=
  ops.flatMap opEvents

/-- Insert into the `QSet` model: append iff not already present. -/
def insertKey (l : List UidPair) (k : UidPair) : List UidPair :=
  if k ∈ l then l else l ++ [k]

/-- The distinct folded request keys of the non-skipped events of a list,
in first-occurrence order, starting from an already-requested set `acc`. -/
def distinctKeysFrom (env : Env) (acc : List UidPair) (es : List Event) :
    List UidPair :=
  es.foldl
    (fun acc e =>
      if e.localUid = "" ∨ e.remoteUid = "" then acc
      else insertKey acc (foldedEventAddressOfEvent env e)) acc

/-- The distinct folded request keys of the non-skipped events of a list. -/
def distinctKeys (env : Env) (es : List Event) : List UidPair :=
  distinctKeysFrom env [] es

/-- The folded uid pair a request was issued for (inverse of `requestFor`). -/
def requestKey : Request → UidPair
  | Request.phone n => ("", n)
  | Request.email a => (a, "")
  | Request.account l r => (l, r)

/-- A run is valid when every completion callback answers an outstanding
request: the external service invokes the callback exactly once per issued
request, so a callback can only arrive while the number of completions is
below the number of requested addresses. -/
def validRun (env : Env) : ResolverState → List Op → Bool
  | _, [] => true
  | s, op :: ops =>
    (if op = Op.callback
     then decide (s.resolvedAddresses < s.requestedAddresses.length)
     else true) &&
    validRun env (step env s op).1 ops

/-- A concrete environment instance used to evaluate the model on concrete
inputs: case folding is the identity, phone minimization keeps the digits,
and only the empty string and a ring-account uid compare as phone numbers. -/
def testEnv : Env where
  toCaseFolded s := s
  minimizePhoneNumber s := String.mk (s.toList.filter Char.isDigit)
  localUidComparesPhoneNumbers s := s = "" || s = "ring/tel/ring"
  itemByPhoneNumber _ := none
  itemByEmailAddress _ := none
  itemByOnlineAccount l r :=
    if l = "acct1" ∧ r = "acct1-contact" then some ⟨7, "Ann"⟩ else none
  generateDisplayLabel item := item.contact

/-- Concrete events used to evaluate the model. -/
def evA : Event := ⟨"a", "x", []⟩

def evB : Event := ⟨"b", "x", []⟩

def evC : Event := ⟨"c", "x", []⟩

def evD : Event := ⟨"d", "x", []⟩

/-- An event in the phone form used by the end-to-end scenario of the spec:
empty local uid, phone-shaped remote uid. -/
def ePhone : Event := ⟨"", "+1-555-0100", []⟩

/-- An event in the online-account form used by the end-to-end scenario. -/
def eAcct : Event := ⟨"acct1", "acct1-contact", []⟩

/-! ## Helper lemmas -/

lemma requestKey_requestFor (p : UidPair) : requestKey (requestFor p) = p := by
  rcases p with ⟨a, b⟩
  by_cases ha : a = "" <;> by_cases hb : b = "" <;>
    simp [requestFor, requestKey, ha, hb]

lemma resolveEvent_fst_events (env : Env) (s : ResolverState) (e : Event) :
    (resolveEvent env s e).1.events = s.events := by
  unfold resolveEvent
  split
  · rfl
  · split <;> rfl

lemma resolveEvent_fst_resolved (env : Env) (s : ResolverState) (e : Event) :
    (resolveEvent env s e).1.resolvedAddresses = s.resolvedAddresses := by
  unfold resolveEvent
  split
  · rfl
  · split <;> rfl

lemma resolveEvent_fst_requested (env : Env) (s : ResolverState) (e : Event) :
    (resolveEvent env s e).1.requestedAddresses =
      if e.localUid = "" ∨ e.remoteUid = "" then s.requestedAddresses
      else insertKey s.requestedAddresses (foldedEventAddressOfEvent env e) := by
  unfold resolveEvent insertKey
  split
  · simp [*]
  · split <;> simp [*]

lemma resolveEvent_snd_mapKey (env : Env) (s : ResolverState) (e : Event) :
    s.requestedAddresses ++ ((resolveEvent env s e).2).map requestKey =
      (resolveEvent env s e).1.requestedAddresses := by
  unfold resolveEvent
  split
  · simp
  · split
    · simp
    · simp [requestKey_requestFor]

lemma mem_insertKey (l : List UidPair) (k k2 : UidPair) (h : k ∈ l) :
    k ∈ insertKey l k2 := by
  unfold insertKey
  split
  · exact h
  · exact List.mem_append_left _ h

lemma length_le_insertKey (l : List UidPair) (k : UidPair) :
    l.length ≤ (insertKey l k).length := by
  unfold insertKey
  split
  · exact le_refl _
  · simp

lemma nodup_insertKey (l : List UidPair) (k : UidPair) (h : l.Nodup) :
    (insertKey l k).Nodup := by
  unfold insertKey
  split
  · exact h
  · simp [List.nodup_append, h, *]

lemma distinctKeysFrom_nil (env : Env) (acc : List UidPair) :
    distinctKeysFrom env acc [] = acc := rfl

lemma distinctKeysFrom_cons (env : Env) (acc : List UidPair) (e : Event)
    (es : List Event) :
    distinctKeysFrom env acc (e :: es) =
      distinctKeysFrom env
        (if e.localUid = "" ∨ e.remoteUid = "" then acc
         else insertKey acc (foldedEventAddressOfEvent env e)) es := rfl

lemma distinctKeysFrom_append (env : Env) (acc : List UidPair)
    (es1 es2 : List Event) :
    distinctKeysFrom env acc (es1 ++ es2) =
      distinctKeysFrom env (distinctKeysFrom env acc es1) es2 := by
  simp [distinctKeysFrom, List.foldl_append]

lemma mem_distinctKeysFrom (env : Env) (es : List Event) :
    ∀ acc k, k ∈ acc → k ∈ distinctKeysFrom env acc es := by
  induction es with
  | nil => intro acc k h; exact h
  | cons e rest ih =>
    intro acc k h
    rw [distinctKeysFrom_cons]
    apply ih
    split
    · exact h
    · exact mem_insertKey _ _ _ h

lemma length_le_distinctKeysFrom (env : Env) (es : List Event) :
    ∀ acc, acc.length ≤ (distinctKeysFrom env acc es).length := by
  induction es with
  | nil => intro acc; exact le_refl _
  | cons e rest ih =>
    intro acc
    rw [distinctKeysFrom_cons]
    refine le_trans ?_ (ih _)
    split
    · exact le_refl _
    · exact length_le_insertKey _ _

lemma nodup_distinctKeysFrom (env : Env) (es : List Event) :
    ∀ acc, acc.Nodup → (distinctKeysFrom env acc es).Nodup := by
  induction es with
  | nil => intro acc h; exact h
  | cons e rest ih =>
    intro acc h
    rw [distinctKeysFrom_cons]
    apply ih
    split
    · exact h
    · exact nodup_insertKey _ _ h

lemma appendLoop_spec (env : Env) (b : List Event) :
    ∀ s : ResolverState,
      (appendLoop env s b).1.events = s.events ++ b ∧
      (appendLoop env s b).1.resolvedAddresses = s.resolvedAddresses ∧
      (appendLoop env s b).1.requestedAddresses =
        distinctKeysFrom env s.requestedAddresses b ∧
      s.requestedAddresses ++ ((appendLoop env s b).2).map requestKey =
        (appendLoop env s b).1.requestedAddresses := by
  induction b with
  | nil => intro s; simp [appendLoop, distinctKeysFrom_nil]
  | cons e rest ih =>
    intro s
    obtain ⟨ih1, ih2, ih3, ih4⟩ :=
      ih { (resolveEvent env s e).1 with
            events := (resolveEvent env s e).1.events ++ [e] }
    simp only [appendLoop]
    refine ⟨?_, ?_, ?_, ?_⟩
    · rw [ih1]
      simp [resolveEvent_fst_events]
    · rw [ih2]
      exact resolveEvent_fst_resolved env s e
    · rw [ih3, distinctKeysFrom_cons]
      simp only [resolveEvent_fst_requested]
    · rw [List.map_append, ← List.append_assoc, resolveEvent_snd_mapKey]
      exact ih4

lemma prependLoop_spec (env : Env) (b : List Event) :
    ∀ s : ResolverState,
      (prependLoop env s b).1.events = b.reverse ++ s.events ∧
      (prependLoop env s b).1.resolvedAddresses = s.resolvedAddresses ∧
      (prependLoop env s b).1.requestedAddresses =
        distinctKeysFrom env s.requestedAddresses b ∧
      s.requestedAddresses ++ ((prependLoop env s b).2).map requestKey =
        (prependLoop env s b).1.requestedAddresses := by
  induction b with
  | nil => intro s; simp [prependLoop, distinctKeysFrom_nil]
  | cons e rest ih =>
    intro s
    obtain ⟨ih1, ih2, ih3, ih4⟩ :=
      ih { (resolveEvent env s e).1 with
            events := e :: (resolveEvent env s e).1.events }
    simp only [prependLoop]
    refine ⟨?_, ?_, ?_, ?_⟩
    · rw [ih1]
      simp [resolveEvent_fst_events]
    · rw [ih2]
      exact resolveEvent_fst_resolved env s e
    · rw [ih3, distinctKeysFrom_cons]
      simp only [resolveEvent_fst_requested]
    · rw [List.map_append, ← List.append_assoc, resolveEvent_snd_mapKey]
      exact ih4

lemma checkIfResolved_fst_requested (env : Env) (s : ResolverState) :
    (checkIfResolved env s).1.requestedAddresses = s.requestedAddresses ∧
    (checkIfResolved env s).1.resolvedAddresses = s.resolvedAddresses := by
  unfold checkIfResolved
  split
  · exact ⟨rfl, rfl⟩
  · split <;> exact ⟨rfl, rfl⟩

lemma checkIfResolved_snd_nil_iff (env : Env) (s : ResolverState) :
    (checkIfResolved env s).2 = [] ↔
      s.events = [] ∨ s.resolvedAddresses < s.requestedAddresses.length := by
  unfold checkIfResolved
  split
  · simp [*]
  · split <;> simp [*]

lemma checkIfResolved_fst_of_nil (env : Env) (s : ResolverState)
    (h : (checkIfResolved env s).2 = []) : (checkIfResolved env s).1 = s := by
  by_cases h1 : s.events = []
  · unfold checkIfResolved
    rw [if_pos h1]
  · by_cases h2 : s.resolvedAddresses < s.requestedAddresses.length
    · unfold checkIfResolved
      rw [if_neg h1, if_pos h2]
    · rcases (checkIfResolved_snd_nil_iff env s).mp h with h3 | h3
      · exact absurd h3 h1
      · exact absurd h3 h2

lemma checkIfResolved_of_delivery (env : Env) (s : ResolverState)
    (h : (checkIfResolved env s).2 ≠ []) :
    (checkIfResolved env s).1.events = [] ∧
    (checkIfResolved env s).2 =
      [Signal.eventsResolved (applyResolvedContacts env s), Signal.finished] := by
  by_cases h1 : s.events = []
  · exact absurd ((checkIfResolved_snd_nil_iff env s).mpr (Or.inl h1)) h
  · by_cases h2 : s.resolvedAddresses < s.requestedAddresses.length
    · exact absurd ((checkIfResolved_snd_nil_iff env s).mpr (Or.inr h2)) h
    · unfold checkIfResolved
      rw [if_neg h1, if_neg h2]
      exact ⟨rfl, rfl⟩

lemma appendEvents_parts (env : Env) (s : ResolverState) (b : List Event) :
    (appendEvents env s b).1.requestedAddresses =
      distinctKeysFrom env s.requestedAddresses b ∧
    s.requestedAddresses ++ ((appendEvents env s b).2.1).map requestKey =
      (appendEvents env s b).1.requestedAddresses ∧
    (appendEvents env s b).1.resolvedAddresses = s.resolvedAddresses := by
  obtain ⟨h1, h2, h3, h4⟩ := appendLoop_spec env b s
  obtain ⟨c1, c2⟩ := checkIfResolved_fst_requested env (appendLoop env s b).1
  unfold appendEvents
  refine ⟨?_, ?_, ?_⟩
  · rw [c1, h3]
  · rw [c1]
    exact h4
  · rw [c2, h2]

lemma prependEvents_parts (env : Env) (s : ResolverState) (b : List Event) :
    (prependEvents env s b).1.requestedAddresses =
      distinctKeysFrom env s.requestedAddresses b ∧
    s.requestedAddresses ++ ((prependEvents env s b).2.1).map requestKey =
      (prependEvents env s b).1.requestedAddresses ∧
    (prependEvents env s b).1.resolvedAddresses = s.resolvedAddresses := by
  obtain ⟨h1, h2, h3, h4⟩ := prependLoop_spec env b s
  obtain ⟨c1, c2⟩ := checkIfResolved_fst_requested env (prependLoop env s b).1
  unfold prependEvents
  refine ⟨?_, ?_, ?_⟩
  · rw [c1, h3]
  · rw [c1]
    exact h4
  · rw [c2, h2]

lemma step_parts (env : Env) (s : ResolverState) (op : Op) :
    (step env s op).1.requestedAddresses =
      distinctKeysFrom env s.requestedAddresses (opEvents op) ∧
    s.requestedAddresses ++ ((step env s op).2.1).map requestKey =
      (step env s op).1.requestedAddresses ∧
    (op ≠ Op.callback →
      (step env s op).1.resolvedAddresses = s.resolvedAddresses) ∧
    (op = Op.callback →
      (step env s op).1.resolvedAddresses = s.resolvedAddresses + 1) := by
  cases op with
  | append b =>
    obtain ⟨h1, h2, h3⟩ := appendEvents_parts env s b
    exact ⟨h1, h2, fun _ => h3, fun h => Op.noConfusion h⟩
  | prepend b =>
    obtain ⟨h1, h2, h3⟩ := prependEvents_parts env s b
    exact ⟨h1, h2, fun _ => h3, fun h => Op.noConfusion h⟩
  | callback =>
    obtain ⟨c1, c2⟩ :=
      checkIfResolved_fst_requested env
        { s with resolvedAddresses := s.resolvedAddresses + 1 }
    refine ⟨?_, ?_, fun h => absurd rfl h, fun _ => ?_⟩
    · simp only [opEvents, distinctKeysFrom_nil, step, addressResolved]
      exact c1
    · simp only [step, addressResolved]
      rw [c1]
      simp
    · simp only [step, addressResolved]
      exact c2

lemma step_requested_mono (env : Env) (s : ResolverState) (op : Op)
    (k : UidPair) (h : k ∈ s.requestedAddresses) :
    k ∈ (step env s op).1.requestedAddresses := by
  rw [(step_parts env s op).1]
  exact mem_distinctKeysFrom env _ _ _ h

lemma step_resolved_mono (env : Env) (s : ResolverState) (op : Op) :
    s.resolvedAddresses ≤ (step env s op).1.resolvedAddresses := by
  obtain ⟨-, -, h3, h4⟩ := step_parts env s op
  by_cases h : op = Op.callback
  · rw [h4 h]
    exact Nat.le_succ _
  · rw [h3 h]

lemma runAll_parts (env : Env) (ops : List Op) :
    ∀ s : ResolverState,
      (runAll env s ops).1.requestedAddresses =
        distinctKeysFrom env s.requestedAddresses (opsEvents ops) ∧
      s.requestedAddresses ++ ((runAll env s ops).2).map requestKey =
        (runAll env s ops).1.requestedAddresses := by
  induction ops with
  | nil => intro s; simp [runAll, opsEvents, distinctKeysFrom_nil]
  | cons op ops ih =>
    intro s
    obtain ⟨ih1, ih2⟩ := ih (step env s op).1
    obtain ⟨h1, h2, -, -⟩ := step_parts env s op
    simp only [runAll]
    constructor
    · rw [ih1, h1]
      show _ = distinctKeysFrom env s.requestedAddresses (opEvents op ++ opsEvents ops)
      rw [distinctKeysFrom_append]
    · rw [List.map_append, ← List.append_assoc, h2]
      exact ih2

lemma validRun_cons (env : Env) (s : ResolverState) (op : Op) (ops : List Op) :
    validRun env s (op :: ops) = true ↔
      ((op = Op.callback →
          s.resolvedAddresses < s.requestedAddresses.length) ∧
       validRun env (step env s op).1 ops = true) := by
  by_cases h : op = Op.callback <;> simp [validRun, h]

lemma step_preserves_le (env : Env) (s : ResolverState) (op : Op)
    (hcb : op = Op.callback →
      s.resolvedAddresses < s.requestedAddresses.length)
    (hinv : s.resolvedAddresses ≤ s.requestedAddresses.length) :
    (step env s op).1.resolvedAddresses ≤
      (step env s op).1.requestedAddresses.length := by
  obtain ⟨h1, -, h3, h4⟩ := step_parts env s op
  by_cases h : op = Op.callback
  · rw [h4 h, h1]
    subst h
    simp only [opEvents, distinctKeysFrom_nil]
    exact Nat.succ_le_of_lt (hcb rfl)
  · rw [h3 h, h1]
    exact le_trans hinv (length_le_distinctKeysFrom env _ _)

lemma foldedEventAddress_snd_ne (env : Env)
    (hcf : ∀ str : String, str ≠ "" → env.toCaseFolded str ≠ "")
    (l r : String) (hr : r ≠ "") : (foldedEventAddress env l r).2 ≠ "" := by
  by_cases hp : env.localUidComparesPhoneNumbers l
  · by_cases hm : env.minimizePhoneNumber r = ""
    · simp only [foldedEventAddress, foldedAddress, hp, if_true, hm,
        if_pos rfl]
      exact hcf r hr
    · simp only [foldedEventAddress, foldedAddress, hp, if_true, hm,
        if_pos rfl, if_neg hm]
      exact hcf _ hm
  · simp only [foldedEventAddress, hp]
    exact hcf r hr

lemma resolveEvent_requests_not_email (env : Env)
    (hcf : ∀ str : String, str ≠ "" → env.toCaseFolded str ≠ "")
    (s : ResolverState) (e : Event) :
    ∀ req ∈ (resolveEvent env s e).2, ∀ a, req ≠ Request.email a := by
  intro req hreq a
  by_cases hskip : e.localUid = "" ∨ e.remoteUid = ""
  · unfold resolveEvent at hreq
    rw [if_pos hskip] at hreq
    simp at hreq
  · by_cases hmem : foldedEventAddressOfEvent env e ∈ s.requestedAddresses
    · unfold resolveEvent at hreq
      rw [if_neg hskip, if_pos hmem] at hreq
      simp at hreq
    · unfold resolveEvent at hreq
      rw [if_neg hskip, if_neg hmem] at hreq
      simp only [List.mem_singleton] at hreq
      subst hreq
      have h2 : (foldedEventAddressOfEvent env e).2 ≠ "" :=
        foldedEventAddress_snd_ne env hcf e.localUid e.remoteUid
          (not_or.mp hskip).2
      unfold requestFor
      by_cases h1 : (foldedEventAddressOfEvent env e).1 = ""
      · simp [h1]
      · simp [h1, h2]

lemma appendLoop_requests_not_email (env : Env)
    (hcf : ∀ str : String, str ≠ "" → env.toCaseFolded str ≠ "")
    (b : List Event) :
    ∀ s, ∀ req ∈ (appendLoop env s b).2, ∀ a, req ≠ Request.email a := by
  induction b with
  | nil => intro s req h; simp [appendLoop] at h
  | cons e rest ih =>
    intro s req h a
    simp only [appendLoop, List.mem_append] at h
    rcases h with h | h
    · exact resolveEvent_requests_not_email env hcf s e req h a
    · exact ih _ req h a

lemma prependLoop_requests_not_email (env : Env)
    (hcf : ∀ str : String, str ≠ "" → env.toCaseFolded str ≠ "")
    (b : List Event) :
    ∀ s, ∀ req ∈ (prependLoop env s b).2, ∀ a, req ≠ Request.email a := by
  induction b with
  | nil => intro s req h; simp [prependLoop] at h
  | cons e rest ih =>
    intro s req h a
    simp only [prependLoop, List.mem_append] at h
    rcases h with h | h
    · exact resolveEvent_requests_not_email env hcf s e req h a
    · exact ih _ req h a

lemma step_requests_not_email (env : Env)
    (hcf : ∀ str : String, str ≠ "" → env.toCaseFolded str ≠ "")
    (s : ResolverState) (op : Op) :
    ∀ req ∈ (step env s op).2.1, ∀ a, req ≠ Request.email a := by
  cases op with
  | append b => exact fun req h a => appendLoop_requests_not_email env hcf b s req h a
  | prepend b => exact fun req h a => prependLoop_requests_not_email env hcf b s req h a
  | callback => intro req h; simp [step] at h

lemma runAll_requests_not_email (env : Env)
    (hcf : ∀ str : String, str ≠ "" → env.toCaseFolded str ≠ "")
    (ops : List Op) :
    ∀ s, ∀ req ∈ (runAll env s ops).2, ∀ a, req ≠ Request.email a := by
  induction ops with
  | nil => intro s req h; simp [runAll] at h
  | cons op ops ih =>
    intro s req h a
    simp only [runAll, List.mem_append] at h
    rcases h with h | h
    · exact step_requests_not_email env hcf s op req h a
    · exact ih _ req h a

/-! ## Claim theorems -/

/-- C1: the completion check delivers (the eventsResolved signal immediately
followed by finished) exactly when the event list is non-empty and the
completion count has reached the size of the requested-address set; when the
count respects the `completedCount ≤ requestedKeys.size` invariant this is
exactly equality of the two; delivery clears the event list in the same
step; and a completion callback arriving while the event list is empty (a
spurious callback after delivery) delivers nothing. -/
theorem checkIfResolved_completion_exactness (env : Env) (s : ResolverState) :
    ((checkIfResolved env s).2 ≠ [] ↔
      s.events ≠ [] ∧ s.requestedAddresses.length ≤ s.resolvedAddresses) ∧
    (s.resolvedAddresses ≤ s.requestedAddresses.length →
      ((checkIfResolved env s).2 ≠ [] ↔
        s.events ≠ [] ∧ s.resolvedAddresses = s.requestedAddresses.length)) ∧
    ((checkIfResolved env s).2 ≠ [] →
      (checkIfResolved env s).1.events = [] ∧
      (checkIfResolved env s).2 =
        [Signal.eventsResolved (applyResolvedContacts env s),
         Signal.finished]) ∧
    (s.events = [] → (addressResolved env s).2 = []) := by
  have hiff : (checkIfResolved env s).2 ≠ [] ↔
      s.events ≠ [] ∧ s.requestedAddresses.length ≤ s.resolvedAddresses :=
    (not_congr (checkIfResolved_snd_nil_iff env s)).trans
      (by rw [not_or, Nat.not_lt])
  refine ⟨hiff, fun hle => ?_, checkIfResolved_of_delivery env s,
    fun hev => ?_⟩
  · rw [hiff]
    constructor
    · rintro ⟨h1, h2⟩
      exact ⟨h1, le_antisymm hle h2⟩
    · rintro ⟨h1, h2⟩
      exact ⟨h1, le_of_eq h2.symm⟩
  · exact (checkIfResolved_snd_nil_iff env
      { s with resolvedAddresses := s.resolvedAddresses + 1 }).mpr
      (Or.inl hev)

/-- Witness for C1: a session with one requested address and one completion
delivers, and a callback on an idle (empty) resolver delivers nothing. -/
theorem checkIfResolved_completion_exactness_witness :
    (checkIfResolved testEnv
        (⟨[eAcct], [("acct1", "acct1-contact")], 1⟩ : ResolverState)).2 ≠
      [] ∧
    (addressResolved testEnv (⟨[], [], 0⟩ : ResolverState)).2 = [] :=
  ⟨(checkIfResolved_completion_exactness testEnv
      ⟨[eAcct], [("acct1", "acct1-contact")], 1⟩).1.mpr (by decide),
   (checkIfResolved_completion_exactness testEnv ⟨[], [], 0⟩).2.2.2
      (by decide)⟩

/-- C2 counterexample: appending the batch [A, B] and then prepending the
batch [C, D] leaves the session's event order [D, C, A, B], not the claimed
[C, D, A, B] - the prepend loop inserts each event of the batch at the front
in turn, reversing the batch's relative order. -/
theorem prependEvents_batch_order_refuted :
    (prependEvents testEnv (appendEvents testEnv initialState [evA, evB]).1
        [evC, evD]).1.events = [evD, evC, evA, evB] ∧
    (prependEvents testEnv (appendEvents testEnv initialState [evA, evB]).1
        [evC, evD]).1.events ≠ [evC, evD, evA, evB] := by
  constructor
  · decide
  · decide

/-- C2 (amended): when the batch does not complete the session, appending a
batch appends it at the tail in order ([A, B] then [C, D] yields
[A, B, C, D]), while prepending a batch inserts each of its events at the
front in turn, so the batch ends up reversed at the front ([C, D] prepended
onto [A, B] yields [D, C, A, B]). -/
theorem append_prepend_event_order (env : Env) (s : ResolverState)
    (batch : List Event) :
    ((appendEvents env s batch).2.2 = [] →
      (appendEvents env s batch).1.events = s.events ++ batch) ∧
    ((prependEvents env s batch).2.2 = [] →
      (prependEvents env s batch).1.events = batch.reverse ++ s.events) := by
  constructor
  · intro h
    unfold appendEvents at h ⊢
    rw [checkIfResolved_fst_of_nil env _ h]
    exact (appendLoop_spec env batch s).1
  · intro h
    unfold prependEvents at h ⊢
    rw [checkIfResolved_fst_of_nil env _ h]
    exact (prependLoop_spec env batch s).1

/-- Witness for C2 (amended): prepending [C, D] after appending [A, B]
yields the event order [C, D].reverse ++ [A, B] = [D, C, A, B]. -/
theorem append_prepend_event_order_witness :
    (prependEvents testEnv (appendEvents testEnv initialState [evA, evB]).1
        [evC, evD]).2.2 = [] ∧
    (prependEvents testEnv (appendEvents testEnv initialState [evA, evB]).1
        [evC, evD]).1.events =
      [evC, evD].reverse ++
        (appendEvents testEnv initialState [evA, evB]).1.events :=
  ⟨by decide,
   (append_prepend_event_order testEnv
      (appendEvents testEnv initialState [evA, evB]).1 [evC, evD]).2
     (by decide)⟩

/-- C3 counterexample: appending the two scenario events to an idle resolver
issues exactly one request (the online-account one), not two - the event
with the empty local uid is skipped by resolveEvent before any request
variant is considered. -/
theorem scenario_requests_refuted :
    (appendEvents testEnv initialState [ePhone, eAcct]).2.1 =
      [Request.account "acct1" "acct1-contact"] ∧
    ((appendEvents testEnv initialState [ePhone, eAcct]).2.1).length ≠ 2 := by
  constructor
  · decide
  · decide

/-- C3 (amended): an event with an empty local or remote uid issues no
request at all; an event with both uids non-empty and a fresh folded key
issues exactly one request, the variant selected by the shape of the folded
key (phone when its first component is empty, email when its second is,
account pair otherwise); and the scenario of appending the empty-local
phone-form event and the account-form event to an idle resolver issues
exactly the single request for the account event's folded address. -/
theorem resolveEvent_request_selection (env : Env) (s : ResolverState)
    (e : Event) :
    (e.localUid = "" ∨ e.remoteUid = "" → resolveEvent env s e = (s, [])) ∧
    (e.localUid ≠ "" → e.remoteUid ≠ "" →
      foldedEventAddressOfEvent env e ∉ s.requestedAddresses →
      (resolveEvent env s e).2 =
        [if (foldedEventAddressOfEvent env e).1 = "" then
           Request.phone (foldedEventAddressOfEvent env e).2
         else if (foldedEventAddressOfEvent env e).2 = "" then
           Request.email (foldedEventAddressOfEvent env e).1
         else
           Request.account (foldedEventAddressOfEvent env e).1
             (foldedEventAddressOfEvent env e).2]) ∧
    (appendEvents env initialState [ePhone, eAcct]).2.1 =
      [requestFor (foldedEventAddressOfEvent env eAcct)] := by
  refine ⟨fun h => ?_, fun h1 h2 h3 => ?_, ?_⟩
  · unfold resolveEvent
    rw [if_pos h]
  · unfold resolveEvent
    rw [if_neg (not_or.mpr ⟨h1, h2⟩), if_neg h3]
    simp only [requestFor]
  · have hcond : ePhone.localUid = "" ∨ ePhone.remoteUid = "" :=
      Or.inl (by decide)
    have hPhone : resolveEvent env initialState ePhone =
        (initialState, []) := by
      unfold resolveEvent
      rw [if_pos hcond]
    have hAcct : ∀ s2 : ResolverState, s2.requestedAddresses = [] →
        (resolveEvent env s2 eAcct).2 =
          [requestFor (foldedEventAddressOfEvent env eAcct)] := by
      intro s2 hreq
      unfold resolveEvent
      rw [if_neg (by simp [eAcct]), if_neg (by simp [hreq])]
    simp only [appendEvents, appendLoop, hPhone]
    rw [hAcct { initialState with
          events := initialState.events ++ [ePhone] } rfl]
    simp

/-- Witness for C3 (amended): the account-form event on an idle resolver
issues one request, and its variant is the online-account pair. -/
theorem resolveEvent_request_selection_witness :
    (resolveEvent testEnv initialState eAcct).2 =
      [if (foldedEventAddressOfEvent testEnv eAcct).1 = "" then
         Request.phone (foldedEventAddressOfEvent testEnv eAcct).2
       else if (foldedEventAddressOfEvent testEnv eAcct).2 = "" then
         Request.email (foldedEventAddressOfEvent testEnv eAcct).1
       else
         Request.account (foldedEventAddressOfEvent testEnv eAcct).1
           (foldedEventAddressOfEvent testEnv eAcct).2] ∧
    (if (foldedEventAddressOfEvent testEnv eAcct).1 = "" then
       Request.phone (foldedEventAddressOfEvent testEnv eAcct).2
     else if (foldedEventAddressOfEvent testEnv eAcct).2 = "" then
       Request.email (foldedEventAddressOfEvent testEnv eAcct).1
     else
       Request.account (foldedEventAddressOfEvent testEnv eAcct).1
         (foldedEventAddressOfEvent testEnv eAcct).2) =
      Request.account "acct1" "acct1-contact" :=
  ⟨(resolveEvent_request_selection testEnv initialState eAcct).2.1
      (by decide) (by decide) (by decide), by decide⟩

/-- C4: over any sequence of append/prepend/callback stimuli starting from
the idle resolver, the requests issued correspond one-to-one to the distinct
folded keys of the non-skipped events, in first-request order: mapping each
request back to its key gives exactly the duplicate-free list of distinct
keys, and the request list itself carries no duplicates. -/
theorem requests_correspond_to_distinct_keys (env : Env) (ops : List Op) :
    ((runAll env initialState ops).2).map requestKey =
      distinctKeys env (opsEvents ops) ∧
    ((runAll env initialState ops).2).Nodup ∧
    (distinctKeys env (opsEvents ops)).Nodup := by
  obtain ⟨h1, h2⟩ := runAll_parts env ops initialState
  have hmap : ((runAll env initialState ops).2).map requestKey =
      distinctKeys env (opsEvents ops) := by
    have h3 := h2.trans h1
    simpa [initialState, distinctKeys] using h3
  have hnodupKeys : (distinctKeys env (opsEvents ops)).Nodup :=
    nodup_distinctKeysFrom env _ [] List.nodup_nil
  refine ⟨hmap, ?_, hnodupKeys⟩
  exact List.Nodup.of_map requestKey (hmap ▸ hnodupKeys)

/-- C5 counterexample: after a session over the account event completes
(append then callback: the resolver is idle again), appending the same
event starts a new session whose requested-address set is NOT empty - the
set survives from the previous session - and the previously requested key
is NOT requested again (no request is issued). -/
theorem requestedAddresses_persist_after_restart :
    isResolving
      (runAll testEnv initialState [Op.append [eAcct], Op.callback]).1 =
      false ∧
    (appendEvents testEnv
        (runAll testEnv initialState [Op.append [eAcct], Op.callback]).1
        [eAcct]).1.requestedAddresses ≠ [] ∧
    (appendEvents testEnv
        (runAll testEnv initialState [Op.append [eAcct], Op.callback]).1
        [eAcct]).2.1 = [] := by
  refine ⟨by decide, by decide, by decide⟩

/-- C5 (amended): the requested-address set only ever grows and is never
cleared - not even when a new session starts from the empty state - and the
completion counter is never reset; consequently an address whose folded key
is already in the set is never requested again, in any later session. -/
theorem requestedAddresses_never_cleared (env : Env) (s : ResolverState)
    (op : Op) :
    (∀ k, k ∈ s.requestedAddresses →
      k ∈ (step env s op).1.requestedAddresses) ∧
    s.resolvedAddresses ≤ (step env s op).1.resolvedAddresses ∧
    (∀ e, foldedEventAddressOfEvent env e ∈ s.requestedAddresses →
      resolveEvent env s e = (s, [])) := by
  refine ⟨fun k h => step_requested_mono env s op k h,
    step_resolved_mono env s op, fun e he => ?_⟩
  unfold resolveEvent
  by_cases h : e.localUid = "" ∨ e.remoteUid = ""
  · rw [if_pos h]
  · rw [if_neg h, if_pos he]

/-- Witness for C5 (amended): a requested key survives a completion
callback, and re-resolving an event with an already-requested key issues
nothing. -/
theorem requestedAddresses_never_cleared_witness :
    ("a", "x") ∈
      (step testEnv (⟨[evA], [("a", "x")], 0⟩ : ResolverState)
          Op.callback).1.requestedAddresses ∧
    resolveEvent testEnv (⟨[evA], [("a", "x")], 0⟩ : ResolverState) evA =
      ((⟨[evA], [("a", "x")], 0⟩ : ResolverState), []) :=
  ⟨(requestedAddresses_never_cleared testEnv ⟨[evA], [("a", "x")], 0⟩
      Op.callback).1 ("a", "x") (by decide),
   (requestedAddresses_never_cleared testEnv ⟨[evA], [("a", "x")], 0⟩
      Op.callback).2.2 evA (by decide)⟩

/-- C6: in every state reached by a run of append/prepend stimuli and
completion callbacks in which each callback answers an outstanding request
(the collaborator invokes the callback exactly once per issued request),
the completion count stays at most the size of the requested-address set. -/
theorem resolved_le_requested_invariant (env : Env) (ops : List Op) :
    ∀ s : ResolverState, validRun env s ops = true →
      s.resolvedAddresses ≤ s.requestedAddresses.length →
      (runAll env s ops).1.resolvedAddresses ≤
        (runAll env s ops).1.requestedAddresses.length := by
  induction ops with
  | nil => intro s _ h; exact h
  | cons op ops ih =>
    intro s hv hinv
    obtain ⟨h1, h2⟩ := (validRun_cons env s op ops).mp hv
    simp only [runAll]
    exact ih _ h2 (step_preserves_le env s op h1 hinv)

/-- Witness for C6: a valid run (one append issuing one request, then its
single callback) keeps the count below or at the set size. -/
theorem resolved_le_requested_invariant_witness :
    (runAll testEnv initialState
        [Op.append [eAcct], Op.callback]).1.resolvedAddresses ≤
      (runAll testEnv initialState
        [Op.append [eAcct], Op.callback]).1.requestedAddresses.length :=
  resolved_le_requested_invariant testEnv [Op.append [eAcct], Op.callback]
    initialState (by decide) (by decide)

/-- C7: the contact-application pass processes every held event (the output
list has one entry per event, in order) using the raw, unminimized uids: a
phone lookup with the raw remote uid when the local uid compares phone
numbers, else an email lookup with the raw local uid when the remote uid is
empty, else an account-pair lookup with both raw uids; a match sets the
contacts list to the single (id, label) entry, no match sets it empty. -/
theorem applyResolvedContacts_per_event (env : Env) (s : ResolverState) :
    (applyResolvedContacts env s).length = s.events.length ∧
    ∀ i : Nat, i < s.events.length →
      (applyResolvedContacts env s).getD i ⟨"", "", []⟩ =
        { s.events.getD i ⟨"", "", []⟩ with
          contacts :=
            match
              (if env.localUidComparesPhoneNumbers
                    (s.events.getD i ⟨"", "", []⟩).localUid then
                 env.itemByPhoneNumber
                   (s.events.getD i ⟨"", "", []⟩).remoteUid
               else if (s.events.getD i ⟨"", "", []⟩).remoteUid = "" then
                 env.itemByEmailAddress
                   (s.events.getD i ⟨"", "", []⟩).localUid
               else
                 env.itemByOnlineAccount
                   (s.events.getD i ⟨"", "", []⟩).localUid
                   (s.events.getD i ⟨"", "", []⟩).remoteUid) with
            | some item => [(item.iid, env.generateDisplayLabel item)]
            | none => [] } := by
  constructor
  · simp [applyResolvedContacts]
  · intro i hi
    have hlen : i < (applyResolvedContacts env s).length := by
      simpa [applyResolvedContacts]
    rw [List.getD_eq_getElem _ _ hlen, List.getD_eq_getElem _ _ hi]
    show (applyResolvedContacts env s)[i] =
      { s.events[i] with
        contacts :=
          match lookupItem env s.events[i] with
          | some item => [(item.iid, env.generateDisplayLabel item)]
          | none => [] }
    simp only [applyResolvedContacts, List.getElem_map]
    rcases hlk : lookupItem env s.events[i] with _ | item <;>
      simp [annotateEvent, hlk]

/-- Witness for C7: the account-form event with a matching cached contact
gets exactly the single contact entry (7, "Ann"). -/
theorem applyResolvedContacts_per_event_witness :
    (applyResolvedContacts testEnv
        (⟨[eAcct], [], 0⟩ : ResolverState)).getD 0 ⟨"", "", []⟩ =
      ⟨"acct1", "acct1-contact", [(7, "Ann")]⟩ :=
  ((applyResolvedContacts_per_event testEnv ⟨[eAcct], [], 0⟩).2 0
      (by decide)).trans (by decide)

/-- C8: address folding is deterministic (equal inputs give equal keys) and
total; when the local uid compares phone numbers the key is the pair of the
empty string and the minimized remote uid if minimization is non-empty
(provided case folding fixes the minimizer's canonical output, part of the
collaborator's contract) or the case-folded raw remote uid otherwise; in
all other cases the key case-folds both uids. -/
theorem foldedEventAddress_deterministic_total (env : Env) (l r : String) :
    (∀ l2 r2, l = l2 → r = r2 →
      foldedEventAddress env l r = foldedEventAddress env l2 r2) ∧
    (env.localUidComparesPhoneNumbers l = true →
      env.toCaseFolded (env.minimizePhoneNumber r) =
        env.minimizePhoneNumber r →
      foldedEventAddress env l r =
        ("", if env.minimizePhoneNumber r = "" then env.toCaseFolded r
             else env.minimizePhoneNumber r)) ∧
    (env.localUidComparesPhoneNumbers l = false →
      foldedEventAddress env l r = (env.toCaseFolded l, env.toCaseFolded r)) := by
  refine ⟨fun l2 r2 h1 h2 => by rw [h1, h2], fun hp hmin => ?_, fun hnp => ?_⟩
  · by_cases hm : env.minimizePhoneNumber r = "" <;>
      simp [foldedEventAddress, foldedAddress, hp, hm, hmin]
  · simp [foldedEventAddress, hnp]

/-- Witness for C8: folding the phone-form address of the scenario yields
the canonical digit form of the number. -/
theorem foldedEventAddress_deterministic_total_witness :
    foldedEventAddress testEnv "" "+1-555-0100" =
      ("", if testEnv.minimizePhoneNumber "+1-555-0100" = ""
           then testEnv.toCaseFolded "+1-555-0100"
           else testEnv.minimizePhoneNumber "+1-555-0100") ∧
    foldedEventAddress testEnv "" "+1-555-0100" = ("", "15550100") :=
  ⟨(foldedEventAddress_deterministic_total testEnv "" "+1-555-0100").2.1
      (by decide) (by decide), by decide⟩

/-- C9: the snapshot operation is non-destructive and idempotent: it leaves
the whole session state unchanged (so it never ends the session), two
consecutive calls return equal annotated lists, and an event whose address
resolves to no cached contact carries an empty contacts list. -/
theorem events_snapshot_idempotent (env : Env) (s : ResolverState) :
    (eventsOp env s).2 = s ∧
    (eventsOp env (eventsOp env s).2).1 = (eventsOp env s).1 ∧
    isResolving (eventsOp env s).2 = isResolving s ∧
    ∀ i : Nat, i < s.events.length →
      lookupItem env (s.events.getD i ⟨"", "", []⟩) = none →
      ((eventsOp env s).1.getD i ⟨"", "", []⟩).contacts = [] := by
  refine ⟨rfl, rfl, rfl, fun i hi hnone => ?_⟩
  have hlen : i < (applyResolvedContacts env s).length := by
    simpa [applyResolvedContacts]
  show ((applyResolvedContacts env s).getD i ⟨"", "", []⟩).contacts = []
  rw [List.getD_eq_getElem _ _ hlen]
  rw [List.getD_eq_getElem _ _ hi] at hnone
  simp [applyResolvedContacts, annotateEvent, hnone]

/-- Witness for C9: an event whose account pair has no cached match is
annotated with an empty contacts list by the snapshot. -/
theorem events_snapshot_idempotent_witness :
    ((eventsOp testEnv (⟨[evA], [("a", "x")], 0⟩ : ResolverState)).1.getD 0
        ⟨"", "", []⟩).contacts = [] :=
  (events_snapshot_idempotent testEnv ⟨[evA], [("a", "x")], 0⟩).2.2.2 0
    (by decide) (by decide)

/-- C10: provided case folding maps non-empty strings to non-empty strings
(a property of the external case-folding collaborator), the email branch of
resolveEvent is unreachable: a request is only issued when both raw uids
are non-empty, folding an address with a non-empty remote uid gives a
non-empty second key component, and therefore no run of the resolver ever
issues an email-address resolution request. -/
theorem email_request_unreachable (env : Env)
    (hcf : ∀ str : String, str ≠ "" → env.toCaseFolded str ≠ "") :
    (∀ s e, (resolveEvent env s e).2 ≠ [] →
      e.localUid ≠ "" ∧ e.remoteUid ≠ "") ∧
    (∀ l r, r ≠ "" → (foldedEventAddress env l r).2 ≠ "") ∧
    (∀ s ops, ∀ req ∈ (runAll env s ops).2, ∀ a, req ≠ Request.email a) := by
  refine ⟨fun s e h => ?_,
    fun l r hr => foldedEventAddress_snd_ne env hcf l r hr,
    fun s ops req h a => runAll_requests_not_email env hcf ops s req h a⟩
  by_cases hskip : e.localUid = "" ∨ e.remoteUid = ""
  · exfalso
    apply h
    show (resolveEvent env s e).2 = []
    unfold resolveEvent
    rw [if_pos hskip]
  · exact not_or.mp hskip

/-- Witness for C10: the scenario run issues only the account request, and
in particular no email request is among the issued requests. -/
theorem email_request_unreachable_witness :
    (runAll testEnv initialState [Op.append [ePhone, eAcct]]).2 =
      [Request.account "acct1" "acct1-contact"] ∧
    Request.email "acct1" ∉
      (runAll testEnv initialState [Op.append [ePhone, eAcct]]).2 :=
  ⟨by decide,
   fun hmem => (email_request_unreachable testEnv (fun _ h => h)).2.2
     initialState [Op.append [ePhone, eAcct]] (Request.email "acct1") hmem
     "acct1" rfl⟩

end CommHistory
